import Mathlib

/-!
Verification development for the collaborative drawing canvas
(`aura-art-studio`).  The definitions below are a shallow embedding of the
application code in `src/vite.config.js` (the React component `App` and the
audio helpers `pcmToWav` / `writeString`):

* `Rec` models a Firestore drawing document (`DrawRecord`): every field the
  code reads is an `Option`, since Firestore documents are duck-typed and the
  code tests field presence with `!== undefined` and truthiness.
* `decode` models the variant dispatch performed by `redrawCanvas`'s forEach
  body: a record with all four of `x1,y1,x2,y2` present is drawn as a line
  segment; otherwise a record with `type === 'image'` and a truthy `url` is an
  image blit; anything else is skipped.
* `redraw` models `redrawCanvas`: it clears the canvas rectangle and replays
  records.  Segment strokes draw synchronously in list order; image blits
  happen inside `img.onload` callbacks, which in the browser's event loop
  always fire after the synchronous forEach completes, in asset-load order.
  The extra `sched` argument is that load-completion order: the list of
  indices (into the in-order list of image records) whose load event fires,
  in the order the events fire.
* The rasterizer is idealized but concrete: a pixel `(i, j)` is inked by a
  stroke exactly when the point `(i, j)` lies within `lineWidth / 2` of the
  segment (the round-cap stroke region), and an image blit covers the
  axis-aligned rectangle `[x, x+width) x [y, y+height)`.  Canvas 2d context
  state that the code touches (`strokeStyle`, `lineWidth`) is threaded
  through the replay fold, with the context defaults as initial values.
-/

/-- A pixel of the canvas raster: untouched (cleared), painted by a stroke of
a given CSS color string, or covered by a blitted image (identified by its
source url). -/
inductive Pix where
  | blank : Pix
  | ink : String → Pix
  | pic : String → Pix
deriving DecidableEq

/-- A Firestore drawing document as read by `redrawCanvas` / written by
`draw` and `addImageToCanvas`.  All fields optional: the code probes them
dynamically. -/
structure Rec where
  x1 : Option ℚ := none
  y1 : Option ℚ := none
  x2 : Option ℚ := none
  y2 : Option ℚ := none
  color : Option String := none
  size : Option ℚ := none
  kind : Option String := none
  url : Option String := none
  x : Option ℚ := none
  y : Option ℚ := none
  width : Option ℚ := none
  height : Option ℚ := none
  userId : Option String := none
deriving DecidableEq

/-- The check `stroke.x1 !== undefined && stroke.y1 !== undefined &&
stroke.x2 !== undefined && stroke.y2 !== undefined` from `redrawCanvas`. -/
def hasSegFields (r : Rec) : Bool :=
  r.x1.isSome && r.y1.isSome && r.x2.isSome && r.y2.isSome

/-- JavaScript truthiness of the optional `url` field (`undefined` and the
empty string are falsy). -/
def urlTruthy (u : Option String) : Bool :=
  match u with
  | some s => if s = "" then false else true
  | none => false

/-- The check `stroke.type === 'image' && stroke.url` from `redrawCanvas`. -/
def isImageRec (r : Rec) : Bool :=
  (r.kind = some "image" : Bool) && urlTruthy r.url

/-- A decoded drawable primitive: a line stroke or an image blit. -/
inductive Prim where
  | line : ℚ → ℚ → ℚ → ℚ → Option String → Option ℚ → Prim
  | blit : String → Option ℚ → Option ℚ → Option ℚ → Option ℚ → Prim
deriving DecidableEq

/-- The variant dispatch of `redrawCanvas`'s forEach body: segment fields
first, else the image check, else the record is a no-op. -/
def decode (r : Rec) : Option Prim :=
  if hasSegFields r then
    some (.line (r.x1.getD 0) (r.y1.getD 0) (r.x2.getD 0) (r.y2.getD 0)
      r.color r.size)
  else if isImageRec r then
    some (.blit (r.url.getD "") r.x r.y r.width r.height)
  else
    none

/-- Whether integer pixel `(i, j)` lies on the `w`-by-`h` canvas. -/
def inBounds (w h : ℕ) (i j : ℤ) : Bool :=
  decide (0 ≤ i) && decide (i < (w : ℤ)) && decide (0 ≤ j) && decide (j < (h : ℤ))

/-- Clamp a rational to the unit interval. -/
def clamp01 (t : ℚ) : ℚ :=
  if t < 0 then 0 else if 1 < t then 1 else t

/-- Whether point `(px, py)` lies within distance `hw` of the closed segment
from `(x1, y1)` to `(x2, y2)` — the round-cap stroke region of half-width
`hw`, decided with exact rational arithmetic via squared distances. -/
def segWithin (x1 y1 x2 y2 px py hw : ℚ) : Bool :=
  let dx := x2 - x1
  let dy := y2 - y1
  let len2 := dx * dx + dy * dy
  let t := if len2 = 0 then 0 else clamp01 (((px - x1) * dx + (py - y1) * dy) / len2)
  let cx := x1 + t * dx
  let cy := y1 + t * dy
  decide ((px - cx) * (px - cx) + (py - cy) * (py - cy) ≤ hw * hw)

/-- Whether pixel `(i, j)` lies in the blit rectangle `[x, x+w) x [y, y+h)`. -/
def inRect (x y w h : ℚ) (i j : ℤ) : Bool :=
  decide (x ≤ (i : ℚ)) && decide ((i : ℚ) < x + w) &&
    decide (y ≤ (j : ℚ)) && decide ((j : ℚ) < y + h)

/-- The slice of 2d-context state the replay code uses: the raster plus the
`strokeStyle` and `lineWidth` properties (threaded because assigning an
invalid value to them is ignored by the canvas API, retaining the previous
value). -/
structure Ctx where
  raster : ℤ → ℤ → Pix
  strokeStyle : String
  lineWidth : ℚ

/-- One `beginPath / moveTo / lineTo / strokeStyle / lineWidth / stroke`
block from `redrawCanvas` (and `draw`).  A `some` color string is assigned;
a missing color leaves the previous `strokeStyle` (assigning `undefined` is
an invalid color and is ignored).  `lineWidth` accepts only finite positive
values, otherwise the previous value is kept. -/
def applyStroke (w h : ℕ) (c : Ctx) (x1 y1 x2 y2 : ℚ)
    (col : Option String) (sz : Option ℚ) : Ctx :=
  let style := match col with
    | some s => s
    | none => c.strokeStyle
  let lw := match sz with
    | some s => if 0 < s then s else c.lineWidth
    | none => c.lineWidth
  { raster := fun i j =>
      if inBounds w h i j && segWithin x1 y1 x2 y2 (i : ℚ) (j : ℚ) (lw / 2) then
        .ink style
      else c.raster i j
    strokeStyle := style
    lineWidth := lw }

/-- One `ctx.drawImage(img, x, y, width, height)` call.  `drawImage` draws
nothing when any geometry argument is not a finite number (an absent field
passes `undefined`, which coerces to NaN), and does not touch stroke state. -/
def applyBlit (w h : ℕ) (c : Ctx) (url : String)
    (ox oy ow oh : Option ℚ) : Ctx :=
  match ox, oy, ow, oh with
  | some a, some b, some bw, some bh =>
      { c with raster := fun i j =>
          if inBounds w h i j && inRect a b bw bh i j then .pic url
          else c.raster i j }
  | _, _, _, _ => c

/-- The synchronous part of one forEach iteration of `redrawCanvas`: only
segment records draw immediately; image records merely install an `onload`
callback, and malformed records do nothing. -/
def stepRec (w h : ℕ) (c : Ctx) (r : Rec) : Ctx :=
  match decode r with
  | some (.line a b a2 b2 col sz) => applyStroke w h c a b a2 b2 col sz
  | _ => c

/-- The data of a queued image blit: source url plus the four geometry
fields as the code read them. -/
def BlitData := String × Option ℚ × Option ℚ × Option ℚ × Option ℚ

/-- The image blit queued (via `img.onload`) by a record, if any. -/
def blitOf (r : Rec) : Option BlitData :=
  match decode r with
  | some (.blit u bx by0 bw bh) => some (u, bx, by0, bw, bh)
  | _ => none

/-- The canvas context right after `ctx.clearRect(0, 0, canvas.width,
canvas.height)`: every on-canvas pixel transparent, `strokeStyle` and
`lineWidth` at their 2d-context defaults. -/
def clearCtx (w h : ℕ) (init : ℤ → ℤ → Pix) : Ctx :=
  ⟨fun i j => if inBounds w h i j then .blank else init i j, "#000000", 1⟩

/-- One image-load event: the image at index `idx` of the queued-blit list
finishes loading and its `onload` callback draws it. -/
def blitStep (w h : ℕ) (imgs : List BlitData) (c : Ctx) (idx : ℕ) : Ctx :=
  match imgs.get? idx with
  | some (u, bx, by0, bw, bh) => applyBlit w h c u bx by0 bw bh
  | none => c

/-- `redrawCanvas(dataToDraw)` on a `w`-by-`h` canvas whose raster currently
holds `init`: clear the canvas rectangle, draw all segment records in list
order, then draw the image records whose load events fire, in event order
(`sched` lists the indices, into the in-order list of queued image blits, of
the load events that fire, in the order they fire — image loading is
asynchronous, so these callbacks always run after the synchronous forEach). -/
def redraw (w h : ℕ) (init : ℤ → ℤ → Pix) (recs : List Rec) (sched : List ℕ) :
    ℤ → ℤ → Pix :=
  (sched.foldl (blitStep w h (recs.filterMap blitOf))
    (recs.foldl (stepRec w h) (clearCtx w h init))).raster

/-- One replay step as the spec's words describe it: the record's decoded
primitive is applied immediately, images included. -/
def specStep (w h : ℕ) (c : Ctx) (r : Rec) : Ctx :=
  match decode r with
  | some (.line a b a2 b2 col sz) => applyStroke w h c a b a2 b2 col sz
  | some (.blit u bx by0 bw bh) => applyBlit w h c u bx by0 bw bh
  | none => c

/-- Modelled from the spec's words for comparison with `redraw` (the claim
about replay order): clears the surface, then applies every record's decoded
primitive immediately, in the given list order, images included. -/
def replaySpecInOrder (w h : ℕ) (init : ℤ → ℤ → Pix) (recs : List Rec) :
    ℤ → ℤ → Pix :=
  (recs.foldl (specStep w h) (clearCtx w h init)).raster

/-- A fully transparent raster. -/
def blankRaster : ℤ → ℤ → Pix := fun _ _ => .blank

/-- The geometry produced by `addImageToCanvas`'s onload callback. -/
structure ImagePlacement where
  x : ℚ
  y : ℚ
  width : ℚ
  height : ℚ
deriving DecidableEq

/-- The placement computation from `addImageToCanvas`:
`imgWidth = Math.min(img.width, canvas.width / 2)`,
`imgHeight = (img.height / img.width) * imgWidth`,
`x = (canvas.width - imgWidth) / 2`, `y = (canvas.height - imgHeight) / 2`. -/
def addImageToCanvas (canvasW canvasH imgW imgH : ℚ) : ImagePlacement :=
  let imgWidth := min imgW (canvasW / 2)
  let imgHeight := (imgH / imgW) * imgWidth
  { x := (canvasW - imgWidth) / 2
    y := (canvasH - imgHeight) / 2
    width := imgWidth
    height := imgHeight }

/-! ### Concrete records used in counterexamples and witnesses -/

/-- A horizontal red stroke segment from (0,2) to (4,2) of size 2. -/
def S1 : Rec :=
  { x1 := some 0, y1 := some 2, x2 := some 4, y2 := some 2,
    color := some "#ff0000", size := some 2 }

/-- A vertical blue stroke segment from (2,0) to (2,4) of size 2. -/
def S2 : Rec :=
  { x1 := some 2, y1 := some 0, x2 := some 2, y2 := some 4,
    color := some "#0000ff", size := some 2 }

/-- An image-placement record blitting url "u" over the square [0,4)x[0,4). -/
def Rimg : Rec :=
  { kind := some "image", url := some "u",
    x := some 0, y := some 0, width := some 4, height := some 4 }

/-- A record with no fields at all: malformed for both variants. -/
def malformedRec : Rec := {}

/-! ### Replay lemmas -/

/-- Two contexts agree on the canvas: equal stroke state and equal rasters at
every on-canvas pixel. -/
def AgreeIn (w h : ℕ) (c c' : Ctx) : Prop :=
  c.strokeStyle = c'.strokeStyle ∧ c.lineWidth = c'.lineWidth ∧
    ∀ i j : ℤ, inBounds w h i j = true → c.raster i j = c'.raster i j

lemma applyStroke_agree {w h : ℕ} {c c' : Ctx} (x1 y1 x2 y2 : ℚ)
    (col : Option String) (sz : Option ℚ) (hc : AgreeIn w h c c') :
    AgreeIn w h (applyStroke w h c x1 y1 x2 y2 col sz)
      (applyStroke w h c' x1 y1 x2 y2 col sz) := by
  obtain ⟨h1, h2, h3⟩ := hc
  refine ⟨?_, ?_, ?_⟩
  · simp only [applyStroke, h1]
  · simp only [applyStroke, h2]
  · intro i j hij
    simp only [applyStroke, h1, h2]
    split_ifs
    · rfl
    · exact h3 i j hij

lemma applyBlit_agree {w h : ℕ} {c c' : Ctx} (u : String)
    (ox oy ow oh : Option ℚ) (hc : AgreeIn w h c c') :
    AgreeIn w h (applyBlit w h c u ox oy ow oh)
      (applyBlit w h c' u ox oy ow oh) := by
  obtain ⟨h1, h2, h3⟩ := hc
  cases ox with
  | none => exact ⟨h1, h2, h3⟩
  | some a =>
  cases oy with
  | none => exact ⟨h1, h2, h3⟩
  | some b =>
  cases ow with
  | none => exact ⟨h1, h2, h3⟩
  | some bw =>
  cases oh with
  | none => exact ⟨h1, h2, h3⟩
  | some bh =>
  refine ⟨h1, h2, ?_⟩
  intro i j hij
  show (if inBounds w h i j && inRect a b bw bh i j then Pix.pic u
      else c.raster i j) =
    (if inBounds w h i j && inRect a b bw bh i j then Pix.pic u
      else c'.raster i j)
  split_ifs
  · rfl
  · exact h3 i j hij

lemma stepRec_agree {w h : ℕ} {c c' : Ctx} (r : Rec) (hc : AgreeIn w h c c') :
    AgreeIn w h (stepRec w h c r) (stepRec w h c' r) := by
  unfold stepRec
  cases hdec : decode r with
  | none => exact hc
  | some p =>
    cases p with
    | line a b a2 b2 col sz => exact applyStroke_agree a b a2 b2 col sz hc
    | blit u bx by0 bw bh => exact hc

lemma blitStep_agree {w h : ℕ} {c c' : Ctx} (imgs : List BlitData) (idx : ℕ)
    (hc : AgreeIn w h c c') :
    AgreeIn w h (blitStep w h imgs c idx) (blitStep w h imgs c' idx) := by
  unfold blitStep
  cases hidx : imgs.get? idx with
  | none => exact hc
  | some q =>
    obtain ⟨u, bx, by0, bw, bh⟩ := q
    exact applyBlit_agree u bx by0 bw bh hc

lemma foldl_agree {w h : ℕ} {α : Type} (f : Ctx → α → Ctx)
    (hf : ∀ (c c' : Ctx) (a : α), AgreeIn w h c c' → AgreeIn w h (f c a) (f c' a))
    (l : List α) {c c' : Ctx} (hc : AgreeIn w h c c') :
    AgreeIn w h (l.foldl f c) (l.foldl f c') := by
  induction l generalizing c c' with
  | nil => exact hc
  | cons a t ih => exact ih (hf c c' a hc)

lemma clearCtx_agree (w h : ℕ) (init1 init2 : ℤ → ℤ → Pix) :
    AgreeIn w h (clearCtx w h init1) (clearCtx w h init2) := by
  refine ⟨rfl, rfl, ?_⟩
  intro i j hij
  simp [clearCtx, hij]

/-- The raster produced by `redrawCanvas` does not depend, at any on-canvas
pixel, on what the canvas held before the call: the initial `clearRect`
erases it. -/
lemma redraw_init_irrel (w h : ℕ) (init1 init2 : ℤ → ℤ → Pix)
    (recs : List Rec) (sched : List ℕ) (i j : ℤ)
    (hij : inBounds w h i j = true) :
    redraw w h init1 recs sched i j = redraw w h init2 recs sched i j := by
  unfold redraw
  refine (foldl_agree _ (fun c c' a hc => blitStep_agree _ a hc) sched
    (foldl_agree _ (fun c c' r hc => stepRec_agree r hc) recs
      (clearCtx_agree w h init1 init2))).2.2 i j hij

lemma blitOf_of_seg {r : Rec} (hr : hasSegFields r = true) : blitOf r = none := by
  simp [blitOf, decode, hr]

lemma filterMap_blitOf_nil {recs : List Rec}
    (hseg : ∀ r ∈ recs, hasSegFields r = true) :
    recs.filterMap blitOf = [] :=
  List.filterMap_eq_nil_iff.mpr fun r hr => blitOf_of_seg (hseg r hr)

lemma blitStep_nil (w h : ℕ) (c : Ctx) (idx : ℕ) :
    blitStep w h [] c idx = c := rfl

lemma foldl_blitStep_nil (w h : ℕ) (sched : List ℕ) (c : Ctx) :
    sched.foldl (blitStep w h []) c = c := by
  induction sched generalizing c with
  | nil => rfl
  | cons a t ih =>
    rw [List.foldl_cons, blitStep_nil]
    exact ih c

/-- For a record list with no image records, the asynchronous image-load
schedule plays no role in the result of `redrawCanvas`. -/
lemma redraw_seg_only (w h : ℕ) (init : ℤ → ℤ → Pix) (recs : List Rec)
    (sched : List ℕ) (hseg : ∀ r ∈ recs, hasSegFields r = true) :
    redraw w h init recs sched =
      (recs.foldl (stepRec w h) (clearCtx w h init)).raster := by
  unfold redraw
  rw [filterMap_blitOf_nil hseg, foldl_blitStep_nil]

lemma stepRec_eq_specStep_of_seg {w h : ℕ} {r : Rec} (c : Ctx)
    (hr : hasSegFields r = true) : stepRec w h c r = specStep w h c r := by
  unfold stepRec specStep decode
  rw [hr]
  simp

lemma foldl_stepRec_eq_specStep {w h : ℕ} {recs : List Rec}
    (hseg : ∀ r ∈ recs, hasSegFields r = true) (c : Ctx) :
    recs.foldl (stepRec w h) c = recs.foldl (specStep w h) c := by
  induction recs generalizing c with
  | nil => rfl
  | cons r t ih =>
    rw [List.foldl_cons, List.foldl_cons,
      stepRec_eq_specStep_of_seg c (hseg r (by simp))]
    exact ih (fun q hq => hseg q (by simp [hq])) _

/-! ### C1 — image placement geometry -/

/-- C1 counterexample: on a 1000-by-1000 surface with a 400-by-200 source
asset, `addImageToCanvas` computes `width = min(400, 500) = 400` (it never
upscales), so the placement is `x=300, y=400, width=400, height=200` — not
the claimed `x=250, y=375, width=500, height=250`. -/
theorem addImageToCanvas_claim_counterexample :
    addImageToCanvas 1000 1000 400 200 = ⟨300, 400, 400, 200⟩ ∧
    addImageToCanvas 1000 1000 400 200 ≠ ⟨250, 375, 500, 250⟩ := by
  constructor
  · simp [addImageToCanvas, min_def]
    norm_num
  · simp [addImageToCanvas, min_def, ImagePlacement.mk.injEq]
    norm_num

/-- C1 (amended): for a 1000-by-1000 surface and a 400-by-200 source asset,
`addImageToCanvas` produces `width=400, height=200, x=300, y=400`; in general
the placement's width is the minimum of the source width and half the surface
width (hence clamped to at most half the surface width), the height scales
proportionally to preserve the source aspect ratio, and the placement is
centered in the surface. -/
theorem addImageToCanvas_geometry (cw ch iw ih : ℚ) (hiw : 0 < iw) :
    addImageToCanvas 1000 1000 400 200 = ⟨300, 400, 400, 200⟩ ∧
    (addImageToCanvas cw ch iw ih).width = min iw (cw / 2) ∧
    (addImageToCanvas cw ch iw ih).width ≤ cw / 2 ∧
    (addImageToCanvas cw ch iw ih).height * iw =
      ih * (addImageToCanvas cw ch iw ih).width ∧
    (addImageToCanvas cw ch iw ih).x = (cw - (addImageToCanvas cw ch iw ih).width) / 2 ∧
    (addImageToCanvas cw ch iw ih).y = (ch - (addImageToCanvas cw ch iw ih).height) / 2 := by
  have h0 : iw ≠ 0 := ne_of_gt hiw
  refine ⟨?_, rfl, min_le_right _ _, ?_, rfl, rfl⟩
  · simp [addImageToCanvas, min_def]
    norm_num
  · simp only [addImageToCanvas]
    field_simp

/-- Witness for C1's amended theorem at a concrete input. -/
theorem addImageToCanvas_geometry_witness :
    (0 : ℚ) < 100 ∧ (addImageToCanvas 800 600 100 50).width = min 100 (800 / 2) :=
  ⟨by norm_num, (addImageToCanvas_geometry 800 600 100 50 (by norm_num)).2.1⟩

/-! ### C4 — malformed records are skipped -/

/-- C4: a record that is neither a complete Segment (all of x1, y1, x2, y2
present) nor an ImagePlacement (type 'image' with a truthy url) decodes to
no primitive, and removing it from any position of the replayed list leaves
every pixel of the resulting raster unchanged: it does not disturb adjacent
valid records, and the total decode function raises no error. -/
theorem decode_malformed_skipped (r : Rec) (h1 : hasSegFields r = false)
    (h2 : isImageRec r = false) :
    decode r = none ∧
    ∀ (w h : ℕ) (init : ℤ → ℤ → Pix) (pre post : List Rec) (sched : List ℕ)
      (i j : ℤ),
      redraw w h init (pre ++ r :: post) sched i j =
        redraw w h init (pre ++ post) sched i j := by
  have hdec : decode r = none := by simp [decode, h1, h2]
  refine ⟨hdec, ?_⟩
  intro w h init pre post sched i j
  have hstep : ∀ c, stepRec w h c r = c := fun c => by simp [stepRec, hdec]
  have hblit : blitOf r = none := by simp [blitOf, hdec]
  unfold redraw
  simp only [List.filterMap_append, List.filterMap_cons, hblit,
    List.foldl_append, List.foldl_cons, hstep]

/-- Witness for C4 at a concrete malformed record sitting between calls. -/
theorem decode_malformed_skipped_witness :
    decode malformedRec = none ∧
    redraw 10 10 blankRaster ([S1] ++ malformedRec :: [S2]) [] 2 2 =
      redraw 10 10 blankRaster ([S1] ++ [S2]) [] 2 2 :=
  ⟨(decode_malformed_skipped malformedRec rfl rfl).1,
    (decode_malformed_skipped malformedRec rfl rfl).2 10 10 blankRaster [S1] [S2] [] 2 2⟩

/-! ### C5 — replay order -/

/-- C5 counterexample: `redrawCanvas` does not apply every record's primitive
in list order.  With an image record followed by an overlapping segment
record, the claimed in-order replay leaves the later segment's ink on the
shared pixel, but the code draws the image inside its asynchronous `onload`
callback, after the synchronous segment pass, so the image covers the pixel
instead. -/
theorem redraw_order_claim_counterexample :
    redraw 10 10 blankRaster [Rimg, S1] [0] 2 2 = Pix.pic "u" ∧
    replaySpecInOrder 10 10 blankRaster [Rimg, S1] 2 2 = Pix.ink "#ff0000" ∧
    redraw 10 10 blankRaster [Rimg, S1] [0] 2 2 ≠
      replaySpecInOrder 10 10 blankRaster [Rimg, S1] 2 2 := by
  have hA : redraw 10 10 blankRaster [Rimg, S1] [0] 2 2 = Pix.pic "u" := by
    simp [redraw, stepRec, decode, hasSegFields, isImageRec, urlTruthy, Rimg, S1,
      applyStroke, applyBlit, blitOf, blitStep, clearCtx, inBounds, inRect,
      segWithin, clamp01, List.filterMap_cons]
    norm_num
  have hB : replaySpecInOrder 10 10 blankRaster [Rimg, S1] 2 2 = Pix.ink "#ff0000" := by
    simp [replaySpecInOrder, specStep, decode, hasSegFields, isImageRec, urlTruthy,
      Rimg, S1, applyStroke, applyBlit, clearCtx, inBounds, inRect, segWithin,
      clamp01]
    norm_num
  refine ⟨hA, hB, ?_⟩
  rw [hA, hB]
  simp

/-- C5 (amended): `redrawCanvas` first clears the pixel surface (the prior
raster is irrelevant at every on-canvas pixel), and applies every Segment
record's stroke synchronously in the given list order — for record lists
with no image records this coincides exactly with the spec's in-order
replay, with no re-sorting and no skipping of valid records.  Image records
are instead drawn when their assets finish loading, after the synchronous
pass.  Reordering two overlapping segment records changes the resulting
raster. -/
theorem redraw_order_amended (w h : ℕ) (recs : List Rec)
    (hseg : ∀ r ∈ recs, hasSegFields r = true) :
    (∀ (recs' : List Rec) (init1 init2 : ℤ → ℤ → Pix) (sch : List ℕ) (i j : ℤ),
      inBounds w h i j = true →
      redraw w h init1 recs' sch i j = redraw w h init2 recs' sch i j) ∧
    (∀ (init : ℤ → ℤ → Pix) (sched : List ℕ) (i j : ℤ),
      redraw w h init recs sched i j = replaySpecInOrder w h init recs i j) ∧
    redraw 10 10 blankRaster [S1, S2] [] 2 2 = Pix.ink "#0000ff" ∧
    redraw 10 10 blankRaster [S2, S1] [] 2 2 = Pix.ink "#ff0000" := by
  refine ⟨?_, ?_, ?_, ?_⟩
  · intro recs' init1 init2 sch i j hij
    exact redraw_init_irrel w h init1 init2 recs' sch i j hij
  · intro init sched i j
    rw [redraw_seg_only w h init recs sched hseg]
    unfold replaySpecInOrder
    rw [foldl_stepRec_eq_specStep hseg]
  · simp [redraw, stepRec, decode, hasSegFields, isImageRec, urlTruthy, S1, S2,
      applyStroke, blitOf, blitStep, clearCtx, inBounds, segWithin, clamp01,
      List.filterMap_cons]
    norm_num
  · simp [redraw, stepRec, decode, hasSegFields, isImageRec, urlTruthy, S1, S2,
      applyStroke, blitOf, blitStep, clearCtx, inBounds, segWithin, clamp01,
      List.filterMap_cons]
    norm_num

/-- Witness for C5's amended theorem at a concrete segment-only list. -/
theorem redraw_order_amended_witness :
    (∀ r ∈ [S1], hasSegFields r = true) ∧
    redraw 10 10 blankRaster [S1] [] 2 2 = replaySpecInOrder 10 10 blankRaster [S1] 2 2 :=
  ⟨by simp [S1, hasSegFields],
    (redraw_order_amended 10 10 [S1] (by simp [S1, hasSegFields])).2.1
      blankRaster [] 2 2⟩

/-! ### C7 — determinism of segment-only replay -/

/-- C7: for a record list consisting only of Segment records (no
ImagePlacement), `redrawCanvas` is a deterministic function of the record
list and the surface dimensions: whatever the surface previously held and
whatever the (empty) image-load schedule does, every on-canvas pixel of the
replayed raster is identical across runs. -/
theorem redraw_deterministic_segments (w h : ℕ) (recs : List Rec)
    (init1 init2 : ℤ → ℤ → Pix) (sched1 sched2 : List ℕ) (i j : ℤ)
    (hseg : ∀ r ∈ recs, hasSegFields r = true) (hij : inBounds w h i j = true) :
    redraw w h init1 recs sched1 i j = redraw w h init2 recs sched2 i j := by
  rw [redraw_seg_only w h init1 recs sched1 hseg,
    redraw_seg_only w h init2 recs sched2 hseg]
  exact (foldl_agree _ (fun c c' r hc => stepRec_agree r hc) recs
    (clearCtx_agree w h init1 init2)).2.2 i j hij

/-- Witness for C7 at a concrete two-segment list, with different prior
rasters and different image-load schedules. -/
theorem redraw_deterministic_segments_witness :
    (∀ r ∈ [S1, S2], hasSegFields r = true) ∧ inBounds 10 10 2 2 = true ∧
    redraw 10 10 blankRaster [S1, S2] [0, 1] 2 2 =
      redraw 10 10 (fun _ _ => Pix.ink "#123456") [S1, S2] [] 2 2 :=
  ⟨by simp [S1, S2, hasSegFields], rfl,
    redraw_deterministic_segments 10 10 [S1, S2] blankRaster
      (fun _ _ => Pix.ink "#123456") [0, 1] [] 2 2
      (by simp [S1, S2, hasSegFields]) rfl⟩

/-! ### The document store and the component's local state -/

/-- A document of the `drawings` collection: its Firestore document id, its
payload, and the server-assigned write timestamp — the ordering key of the
listener's query. -/
structure StoredRec where
  docId : ℕ
  data : Rec
  serverTime : ℕ
deriving DecidableEq

/-- Ascending server-timestamp order on document lists. -/
def SortedTS (docs : List StoredRec) : Prop :=
  docs.Sorted (fun a b => a.serverTime ≤ b.serverTime)

instance : IsTotal StoredRec (fun a b => a.serverTime ≤ b.serverTime) :=
  ⟨fun a b => Nat.le_total a.serverTime b.serverTime⟩

instance : IsTrans StoredRec (fun a b => a.serverTime ≤ b.serverTime) :=
  ⟨fun _ _ _ => Nat.le_trans⟩

/-- The store's result order for `orderBy('timestamp', 'asc')`: documents
sorted ascending by their server-assigned timestamp (a stable sort; the
store leaves ties in an unspecified but fixed order). -/
def sortTS (docs : List StoredRec) : List StoredRec :=
  docs.insertionSort (fun a b => a.serverTime ≤ b.serverTime)

/-- The listener's query
`drawingCollectionRef.orderBy('timestamp', 'asc').limit(500)`: the first 500
documents in ascending timestamp order — the oldest 500 when the collection
is larger. -/
def queryWindow (docs : List StoredRec) : List StoredRec :=
  (sortTS docs).take 500

/-- Modelled from the claim's words, for comparison with `queryWindow`: the
500 most-recent documents of the collection, still delivered in ascending
timestamp order. -/
def newestWindow (docs : List StoredRec) : List StoredRec :=
  (sortTS docs).drop ((sortTS docs).length - 500)

/-- The component's local state slots the modelled handlers touch. -/
structure AppState where
  drawingData : List Rec
  currentTool : String
  brushColor : String
  brushSize : ℚ
  isDrawing : Bool
  lastX : ℚ
  lastY : ℚ
  generatedImageUrl : String
  errorMessage : String
  userId : Option String
deriving DecidableEq

/-- The `onSnapshot` handler of the Firestore listener effect: rebuild the
whole data array from the delivered snapshot and replace `drawingData` with
it (every snapshot is the complete current window, not a diff). -/
def applySnapshot (st : AppState) (docs : List StoredRec) : AppState :=
  { st with drawingData := (queryWindow docs).map (fun d => d.data) }

/-- `drawingCollectionRef.get()` as used by `clearCanvas`: a plain collection
fetch with no orderBy and no limit — every document of the collection. -/
def collectionGet (docs : List StoredRec) : List StoredRec := docs

/-- The effect of committing a batch holding `batch.delete(doc.ref)` for each
target document: the targeted ids vanish from the collection.  The batch is
atomic, so this is only ever applied in full. -/
def batchDelete (docs targets : List StoredRec) : List StoredRec :=
  docs.filter (fun d => !(targets.any (fun t => (t.docId = d.docId : Bool))))

/-- `clearCanvas`: fetch the whole collection, fill one batch with a delete
for every fetched document, and commit.  `commitOk` is the outcome of the
single atomic `batch.commit()` round-trip: on success the local record list
and the stored generated-image url are reset; on failure (the `catch`
branch) the collection is untouched and only the error-message slot is
written. -/
def clearCanvas (docs : List StoredRec) (st : AppState) (commitOk : Bool) :
    List StoredRec × AppState :=
  let fetched := collectionGet docs
  if commitOk then
    (batchDelete docs fetched,
      { st with drawingData := [], generatedImageUrl := "" })
  else
    (docs,
      { st with errorMessage := "Failed to clear canvas. Please try again." })

/-- The `draw(e)` pointer-move handler: return early unless a drag is in
progress; compute canvas-relative coordinates; build the stroke record (the
eraser tool paints with the literal color '#ffffff'); advance the drag
coordinates.  The returned record is the one published to the store with
`add` (the store then assigns `serverTime`). -/
def draw (st : AppState) (rectLeft rectTop clientX clientY : ℚ) :
    Option (Rec × AppState) :=
  if st.isDrawing = false then none
  else
    some
      ({ x1 := some st.lastX, y1 := some st.lastY,
         x2 := some (clientX - rectLeft), y2 := some (clientY - rectTop),
         color := some (if st.currentTool = "brush" then st.brushColor
           else "#ffffff"),
         size := some st.brushSize, userId := st.userId },
       { st with lastX := clientX - rectLeft, lastY := clientY - rectTop })

/-- A 501-document collection, already in ascending timestamp order. -/
def bigDocs : List StoredRec :=
  (List.range 501).map (fun n => ⟨n, {}, n⟩)

/-- A concrete local state used in witnesses. -/
def stW : AppState :=
  { drawingData := [S1], currentTool := "eraser", brushColor := "#123456",
    brushSize := 2, isDrawing := true, lastX := 0, lastY := 2,
    generatedImageUrl := "d", errorMessage := "", userId := some "alice" }

lemma sortTS_sorted (docs : List StoredRec) : SortedTS (sortTS docs) :=
  List.sorted_insertionSort _ docs

lemma sortTS_of_sorted {docs : List StoredRec} (hs : SortedTS docs) :
    sortTS docs = docs :=
  List.Sorted.insertionSort_eq hs

lemma bigDocs_sorted : SortedTS bigDocs := by
  unfold SortedTS bigDocs
  rw [List.Sorted, List.pairwise_map]
  exact (List.pairwise_lt_range 501).imp (fun hab => Nat.le_of_lt hab)

lemma bigDocs_length : bigDocs.length = 501 := by
  simp [bigDocs]

/-! ### C2 — the subscription window -/

set_option maxRecDepth 8000

/-- C2 counterexample: with 501 documents (timestamps 0..500), the query
`orderBy('timestamp','asc').limit(500)` returns the FIRST 500 in ascending
order — the window starts at the oldest document (timestamp 0) and excludes
the newest (timestamp 500), so it is not the 500 most-recent records. -/
theorem queryWindow_newest_counterexample :
    (queryWindow bigDocs)[0]? = some ⟨0, {}, 0⟩ ∧
    (newestWindow bigDocs)[0]? = some ⟨1, {}, 1⟩ ∧
    (⟨500, {}, 500⟩ : StoredRec) ∉ queryWindow bigDocs ∧
    (⟨500, {}, 500⟩ : StoredRec) ∈ newestWindow bigDocs ∧
    queryWindow bigDocs ≠ newestWindow bigDocs := by
  refine ⟨by decide, by decide, by decide, by decide, by decide⟩

/-- C2 (amended): every snapshot delivered to the listener is the complete
current window (the handler rebuilds `drawingData` wholesale from it), the
window is ordered ascending by the server-assigned timestamp, and it is
bounded to 500 records — but it consists of the FIRST 500 in ascending
timestamp order: when the collection holds more than 500 records, the window
is the oldest 500, not the newest. -/
theorem queryWindow_characterization (docs : List StoredRec) :
    SortedTS (queryWindow docs) ∧
    (queryWindow docs).length = min 500 docs.length ∧
    (∀ st : AppState, (applySnapshot st docs).drawingData =
      (queryWindow docs).map (fun d => d.data)) ∧
    (SortedTS docs → queryWindow docs = docs.take 500) := by
  refine ⟨?_, ?_, fun st => rfl, ?_⟩
  · exact List.Pairwise.sublist (List.take_sublist 500 _) (sortTS_sorted docs)
  · rw [queryWindow, List.length_take, sortTS, List.length_insertionSort]
  · intro hs
    rw [queryWindow, sortTS_of_sorted hs]

/-- Witness for C2's amended theorem at the concrete sorted collection. -/
theorem queryWindow_characterization_witness :
    SortedTS bigDocs ∧ queryWindow bigDocs = bigDocs.take 500 :=
  ⟨bigDocs_sorted, (queryWindow_characterization bigDocs).2.2.2 bigDocs_sorted⟩

/-! ### C3 — clearCanvas -/

lemma queryWindow_bigDocs_length : (queryWindow bigDocs).length = 500 := by
  rw [queryWindow, List.length_take, sortTS, List.length_insertionSort,
    bigDocs_length]
  omega

lemma batchDelete_self (docs : List StoredRec) : batchDelete docs docs = [] := by
  unfold batchDelete
  rw [List.filter_eq_nil_iff]
  intro d hd
  have hany : docs.any (fun t => (t.docId = d.docId : Bool)) = true :=
    List.any_eq_true.mpr ⟨d, hd, by simp⟩
  simp [hany]

/-- C3 counterexample: `clearCanvas` fetches with a plain `get()` on the
collection reference — no orderBy, no limit — so on a 501-document
collection the fetched set has 501 documents while the subscription's
current window has only 500: the fetch is not "the full current window". -/
theorem clearCanvas_fetch_counterexample :
    (collectionGet bigDocs).length = 501 ∧
    (queryWindow bigDocs).length = 500 ∧
    collectionGet bigDocs ≠ queryWindow bigDocs := by
  refine ⟨bigDocs_length, queryWindow_bigDocs_length, fun hEq => ?_⟩
  have h : (501 : ℕ) = 500 := by
    rw [← bigDocs_length, ← queryWindow_bigDocs_length]
    exact congrArg List.length hEq
  exact absurd h (by norm_num)

/-- C3 (amended): `clearCanvas` fetches the ENTIRE collection (a plain
unlimited `get()`, which can exceed the 500-record subscription window),
deletes every fetched document in a single all-or-nothing batch, and signals
success only when the commit completes, leaving the collection empty and the
local record list cleared; on failure no records are removed, the local
record list is unchanged, and the error message is surfaced. -/
theorem clearCanvas_atomic (docs : List StoredRec) (st : AppState) :
    collectionGet docs = docs ∧
    (clearCanvas docs st true).1 = [] ∧
    (clearCanvas docs st true).2.drawingData = [] ∧
    (clearCanvas docs st true).2.generatedImageUrl = "" ∧
    (clearCanvas docs st true).2.errorMessage = st.errorMessage ∧
    (clearCanvas docs st false).1 = docs ∧
    (clearCanvas docs st false).2.drawingData = st.drawingData ∧
    (clearCanvas docs st false).2.generatedImageUrl = st.generatedImageUrl ∧
    (clearCanvas docs st false).2.errorMessage =
      "Failed to clear canvas. Please try again." := by
  refine ⟨rfl, ?_, rfl, rfl, rfl, rfl, rfl, rfl, rfl⟩
  show batchDelete docs (collectionGet docs) = []
  exact batchDelete_self docs

/-! ### C8 — clearing an empty collection -/

lemma redraw_nil (w h : ℕ) (init : ℤ → ℤ → Pix) (sched : List ℕ) (i j : ℤ)
    (hij : inBounds w h i j = true) :
    redraw w h init [] sched i j = Pix.blank := by
  unfold redraw
  rw [show List.filterMap blitOf [] = [] from rfl, foldl_blitStep_nil]
  show (clearCtx w h init).raster i j = Pix.blank
  simp [clearCtx, hij]

/-- C8: clearing an already-empty collection commits an empty batch; when
that (trivial) commit succeeds the collection stays empty, the local record
list becomes empty, no error message is set, and replaying the resulting
record list leaves every on-canvas pixel blank. -/
theorem clearCanvas_empty_idempotent (st : AppState) (w h : ℕ)
    (init : ℤ → ℤ → Pix) (sched : List ℕ) (i j : ℤ)
    (hij : inBounds w h i j = true) :
    (clearCanvas [] st true).1 = [] ∧
    (clearCanvas [] st true).2.drawingData = [] ∧
    (clearCanvas [] st true).2.errorMessage = st.errorMessage ∧
    redraw w h init (clearCanvas [] st true).2.drawingData sched i j = Pix.blank := by
  refine ⟨rfl, rfl, rfl, ?_⟩
  exact redraw_nil w h init sched i j hij

/-- Witness for C8 at a concrete state and pixel. -/
theorem clearCanvas_empty_idempotent_witness :
    inBounds 10 10 2 2 = true ∧
    redraw 10 10 blankRaster (clearCanvas [] stW true).2.drawingData [] 2 2 =
      Pix.blank :=
  ⟨rfl, (clearCanvas_empty_idempotent stW 10 10 blankRaster [] 2 2 rfl).2.2.2⟩

/-! ### C10 — frame conditions of clearCanvas -/

/-- C10: a successful clear resets exactly the local record list (to empty)
and the stored generated-image url (to the empty string), leaving the tool,
brush color, brush size, drag coordinates, drawing flag, user id and error
message untouched; a failed clear changes nothing except writing the
error-message slot. -/
theorem clearCanvas_frame (docs : List StoredRec) (st : AppState) :
    (clearCanvas docs st true).2 =
      { st with drawingData := [], generatedImageUrl := "" } ∧
    (clearCanvas docs st true).2.currentTool = st.currentTool ∧
    (clearCanvas docs st true).2.brushColor = st.brushColor ∧
    (clearCanvas docs st true).2.brushSize = st.brushSize ∧
    (clearCanvas docs st true).2.lastX = st.lastX ∧
    (clearCanvas docs st true).2.lastY = st.lastY ∧
    (clearCanvas docs st true).2.isDrawing = st.isDrawing ∧
    (clearCanvas docs st true).2.userId = st.userId ∧
    (clearCanvas docs st true).2.errorMessage = st.errorMessage ∧
    (clearCanvas docs st false).2 =
      { st with errorMessage := "Failed to clear canvas. Please try again." } :=
  ⟨rfl, rfl, rfl, rfl, rfl, rfl, rfl, rfl, rfl, rfl⟩

/-! ### C9 — eraser strokes -/

/-- Appending a well-formed Segment record to a segment-only list and
replaying paints every covered on-canvas pixel with that record's color. -/
lemma redraw_append_seg (w h : ℕ) (init : ℤ → ℤ → Pix) (recs : List Rec)
    (r : Rec) (a b a2 b2 s : ℚ) (col : String) (sched : List ℕ) (i j : ℤ)
    (hseg : ∀ q ∈ recs, hasSegFields q = true)
    (hx1 : r.x1 = some a) (hy1 : r.y1 = some b)
    (hx2 : r.x2 = some a2) (hy2 : r.y2 = some b2)
    (hcol : r.color = some col) (hsz : r.size = some s)
    (hs : 0 < s) (hij : inBounds w h i j = true)
    (hcov : segWithin a b a2 b2 (i : ℚ) (j : ℚ) (s / 2) = true) :
    redraw w h init (recs ++ [r]) sched i j = Pix.ink col := by
  have hr : hasSegFields r = true := by
    simp [hasSegFields, hx1, hy1, hx2, hy2]
  have hall : ∀ q ∈ recs ++ [r], hasSegFields q = true := by
    intro q hq
    rcases List.mem_append.mp hq with hq | hq
    · exact hseg q hq
    · rw [List.mem_singleton.mp hq]
      exact hr
  have hdec : decode r = some (.line a b a2 b2 (some col) (some s)) := by
    simp [decode, hr, hx1, hy1, hx2, hy2, hcol, hsz]
  rw [redraw_seg_only w h init _ sched hall, List.foldl_append,
    List.foldl_cons, List.foldl_nil]
  simp only [stepRec, hdec]
  simp [applyStroke, hs, hij, hcov]

/-- C9: a drag step taken with the eraser tool publishes an ordinary Segment
record whose color field is the literal '#ffffff' — byte-for-byte the record
a brush drag with white brush color would publish — and on replay it paints
covered pixels opaque white, entering the record list by appending, never by
removing or altering prior records. -/
theorem eraser_publishes_white_segment (st : AppState)
    (rectLeft rectTop clientX clientY : ℚ)
    (h1 : st.isDrawing = true) (h2 : st.currentTool = "eraser")
    (hs : 0 < st.brushSize) :
    ∃ stroke st2,
      draw st rectLeft rectTop clientX clientY = some (stroke, st2) ∧
      stroke.color = some "#ffffff" ∧
      hasSegFields stroke = true ∧
      isImageRec stroke = false ∧
      (draw { st with currentTool := "brush", brushColor := "#ffffff" }
        rectLeft rectTop clientX clientY).map (fun p => p.1) = some stroke ∧
      ∀ (w h : ℕ) (init : ℤ → ℤ → Pix) (recs : List Rec) (sched : List ℕ)
        (i j : ℤ),
        (∀ q ∈ recs, hasSegFields q = true) → inBounds w h i j = true →
        segWithin st.lastX st.lastY (clientX - rectLeft) (clientY - rectTop)
          (i : ℚ) (j : ℚ) (st.brushSize / 2) = true →
        redraw w h init (recs ++ [stroke]) sched i j = Pix.ink "#ffffff" := by
  let stroke : Rec :=
    { x1 := some st.lastX, y1 := some st.lastY,
      x2 := some (clientX - rectLeft), y2 := some (clientY - rectTop),
      color := some "#ffffff", size := some st.brushSize,
      userId := st.userId }
  let st2 : AppState :=
    { st with lastX := clientX - rectLeft, lastY := clientY - rectTop }
  refine ⟨stroke, st2, ?_, rfl, rfl, rfl, ?_, ?_⟩
  · simp [draw, h1, h2, stroke, st2]
  · simp [draw, h1, h2, stroke, st2]
  · intro w h init recs sched i j hsegs hij hcov
    exact redraw_append_seg w h init recs _ st.lastX st.lastY
      (clientX - rectLeft) (clientY - rectTop) st.brushSize "#ffffff" sched i j
      hsegs rfl rfl rfl rfl rfl rfl hs hij hcov

/-- Witness for C9 at a concrete eraser drag step. -/
theorem eraser_publishes_white_segment_witness :
    stW.isDrawing = true ∧ stW.currentTool = "eraser" ∧ 0 < stW.brushSize ∧
    (∃ stroke st2,
      draw stW 0 0 4 2 = some (stroke, st2) ∧
      stroke.color = some "#ffffff" ∧
      hasSegFields stroke = true ∧
      isImageRec stroke = false ∧
      (draw { stW with currentTool := "brush", brushColor := "#ffffff" }
        0 0 4 2).map (fun p => p.1) = some stroke ∧
      ∀ (w h : ℕ) (init : ℤ → ℤ → Pix) (recs : List Rec) (sched : List ℕ)
        (i j : ℤ),
        (∀ q ∈ recs, hasSegFields q = true) → inBounds w h i j = true →
        segWithin stW.lastX stW.lastY (4 - 0) (2 - 0)
          (i : ℚ) (j : ℚ) (stW.brushSize / 2) = true →
        redraw w h init (recs ++ [stroke]) sched i j = Pix.ink "#ffffff") :=
  ⟨rfl, rfl, by norm_num [stW],
    eraser_publishes_white_segment stW 0 0 4 2 rfl rfl (by norm_num [stW])⟩

/-! ### C6 — pcmToWav

Byte-level model of the audio utility: an `ArrayBuffer` is zero-initialized,
and `DataView.setUintN(..., true)` stores little-endian.  `pcmToWav` is the
exact write sequence of the source function; `wavHeader` is its header
portion (offsets 0..43) and `writeSamples` its sample loop (the loop writes
sample `i` at offset `44 + i * bytesPerSample`). -/

/-- A byte-addressed view of an `ArrayBuffer`. -/
def ByteBuf := ℕ → ℕ

/-- A fresh `ArrayBuffer`: JavaScript zero-initializes it. -/
def emptyBuf : ByteBuf := fun _ => 0

/-- `view.setUint8(off, v)`: store the low byte of `v` at `off`. -/
def setUint8 (b : ByteBuf) (off v : ℕ) : ByteBuf :=
  fun k => if k = off then v % 256 else b k

/-- `view.setUint16(off, v, true)`: 16-bit little-endian store. -/
def setUint16LE (b : ByteBuf) (off v : ℕ) : ByteBuf :=
  setUint8 (setUint8 b off v) (off + 1) (v / 256)

/-- `view.setUint32(off, v, true)`: 32-bit little-endian store. -/
def setUint32LE (b : ByteBuf) (off v : ℕ) : ByteBuf :=
  setUint8 (setUint8 (setUint8 (setUint8 b off v) (off + 1) (v / 256))
    (off + 2) (v / 65536)) (off + 3) (v / 16777216)

/-- `view.setInt16(off, s, true)`: 16-bit two's-complement little-endian
store (the euclidean remainder modulo 2^16 is the stored bit pattern). -/
def setInt16LE (b : ByteBuf) (off : ℕ) (s : ℤ) : ByteBuf :=
  setUint16LE b off (s % 65536).toNat

/-- The loop body of the source's `writeString` helper. -/
def writeChars (b : ByteBuf) (off : ℕ) : List Char → ByteBuf
  | [] => b
  | ch :: rest => writeChars (setUint8 b off ch.toNat) (off + 1) rest

/-- `writeString(view, offset, string)`: one `setUint8(offset + i,
string.charCodeAt(i))` per character. -/
def writeString (b : ByteBuf) (off : ℕ) (s : String) : ByteBuf :=
  writeChars b off s.toList

/-- The PCM sample loop of `pcmToWav`: `setInt16(44 + i * 2, pcmData[i],
true)` for each sample, modelled with a running offset. -/
def writeSamples (b : ByteBuf) (off : ℕ) : List ℤ → ByteBuf
  | [] => b
  | s :: rest => writeSamples (setInt16LE b off s) (off + 2) rest

/-- The header writes of `pcmToWav` (offsets 0..43), in program order, with
`numChannels = 1` and `bytesPerSample = 2` exactly as the source fixes
them. -/
def wavHeader (sampleRate byteLength : ℕ) : ByteBuf :=
  let numChannels := 1
  let bytesPerSample := 2
  let byteRate := sampleRate * numChannels * bytesPerSample
  let blockAlign := numChannels * bytesPerSample
  let view := emptyBuf
  let view := writeString view 0 "RIFF"
  let view := setUint32LE view 4 (36 + byteLength)
  let view := writeString view 8 "WAVE"
  let view := writeString view 12 "fmt "
  let view := setUint32LE view 16 16
  let view := setUint16LE view 20 1
  let view := setUint16LE view 22 numChannels
  let view := setUint32LE view 24 sampleRate
  let view := setUint32LE view 28 byteRate
  let view := setUint16LE view 32 blockAlign
  let view := setUint16LE view 34 (bytesPerSample * 8)
  let view := writeString view 36 "data"
  let view := setUint32LE view 40 byteLength
  view

/-- `pcmToWav(pcmData, sampleRate)`: a 44-byte header followed by the raw
samples; the produced Blob spans the whole buffer, `44 + pcmData.byteLength`
bytes (`byteLength = 2 * length` for an Int16Array). -/
def pcmToWav (pcmData : List ℤ) (sampleRate : ℕ) : ByteBuf × ℕ :=
  let byteLength := 2 * pcmData.length
  (writeSamples (wavHeader sampleRate byteLength) 44 pcmData,
    44 + byteLength)

/-- Read back an unsigned little-endian 16-bit field. -/
def readU16 (b : ByteBuf) (off : ℕ) : ℕ := b off + 256 * b (off + 1)

/-- Read back an unsigned little-endian 32-bit field. -/
def readU32 (b : ByteBuf) (off : ℕ) : ℕ :=
  b off + 256 * b (off + 1) + 65536 * b (off + 2) + 16777216 * b (off + 3)

/-- Read back a signed little-endian 16-bit sample. -/
def readS16 (b : ByteBuf) (off : ℕ) : ℤ :=
  if readU16 b off < 32768 then (readU16 b off : ℤ)
  else (readU16 b off : ℤ) - 65536

lemma writeSamples_lt (l : List ℤ) (b : ByteBuf) (off k : ℕ) (h : k < off) :
    writeSamples b off l k = b k := by
  induction l generalizing b off with
  | nil => rfl
  | cons s t ih =>
    rw [writeSamples, ih _ _ (by omega)]
    have h1 : k ≠ off := by omega
    have h2 : k ≠ off + 1 := by omega
    simp [setInt16LE, setUint16LE, setUint8, h1, h2]

example : "RIFF".toList = ['R', 'I', 'F', 'F'] := rfl
example : ('R').toNat = 82 := rfl

lemma wavHeader_b0 (sr bl : ℕ) : wavHeader sr bl 0 = 82 := by
  simp [wavHeader, writeString, writeChars, setUint32LE, setUint16LE, setUint8,
    emptyBuf]

lemma wavHeader_u32_4 (sr bl : ℕ) (h : 36 + bl < 4294967296) :
    readU32 (wavHeader sr bl) 4 = 36 + bl := by
  simp [readU32, wavHeader, writeString, writeChars, setUint32LE, setUint16LE,
    setUint8, emptyBuf]
  omega

lemma readU16_setInt16LE (b : ByteBuf) (off : ℕ) (s : ℤ) :
    readU16 (setInt16LE b off s) off = (s % 65536).toNat := by
  have h1 : off ≠ off + 1 := by omega
  simp [readU16, setInt16LE, setUint16LE, setUint8, h1]
  omega

lemma readS16_setInt16LE (b : ByteBuf) (off : ℕ) (s : ℤ)
    (hl : -32768 ≤ s) (hh : s < 32768) :
    readS16 (setInt16LE b off s) off = s := by
  rw [readS16, readU16_setInt16LE]
  split_ifs <;> omega

lemma readS16_congr {b b' : ByteBuf} (off : ℕ) (h0 : b off = b' off)
    (h1 : b (off + 1) = b' (off + 1)) : readS16 b off = readS16 b' off := by
  rw [readS16, readS16, readU16, readU16, h0, h1]

lemma readS16_writeSamples (l : List ℤ) (b : ByteBuf) (off i : ℕ)
    (hi : i < l.length) (hr : ∀ s ∈ l, -32768 ≤ s ∧ s < 32768) :
    readS16 (writeSamples b off l) (off + 2 * i) = l.getD i 0 := by
  induction l generalizing b off i with
  | nil => simp at hi
  | cons s t ih =>
    cases i with
    | zero =>
      obtain ⟨hl, hh⟩ := hr s (by simp)
      rw [show off + 2 * 0 = off from by omega, writeSamples]
      rw [readS16_congr off (writeSamples_lt t _ _ off (by omega))
        (writeSamples_lt t _ _ (off + 1) (by omega))]
      rw [readS16_setInt16LE _ _ _ hl hh]
      rfl
    | succ i2 =>
      rw [show off + 2 * (i2 + 1) = (off + 2) + 2 * i2 from by ring, writeSamples,
        List.getD_cons_succ]
      exact ih _ _ _ (by simpa using hi) (fun q hq => hr q (by simp [hq]))

lemma wavHeader_riff (sr bl : ℕ) :
    [wavHeader sr bl 0, wavHeader sr bl 1, wavHeader sr bl 2, wavHeader sr bl 3] =
      [82, 73, 70, 70] := by
  simp [wavHeader, writeString, writeChars, setUint32LE, setUint16LE, setUint8,
    emptyBuf]

lemma wavHeader_wave (sr bl : ℕ) :
    [wavHeader sr bl 8, wavHeader sr bl 9, wavHeader sr bl 10, wavHeader sr bl 11] =
      [87, 65, 86, 69] := by
  simp [wavHeader, writeString, writeChars, setUint32LE, setUint16LE, setUint8,
    emptyBuf]

lemma wavHeader_fmt (sr bl : ℕ) :
    [wavHeader sr bl 12, wavHeader sr bl 13, wavHeader sr bl 14, wavHeader sr bl 15] =
      [102, 109, 116, 32] := by
  simp [wavHeader, writeString, writeChars, setUint32LE, setUint16LE, setUint8,
    emptyBuf]

lemma wavHeader_data (sr bl : ℕ) :
    [wavHeader sr bl 36, wavHeader sr bl 37, wavHeader sr bl 38, wavHeader sr bl 39] =
      [100, 97, 116, 97] := by
  simp [wavHeader, writeString, writeChars, setUint32LE, setUint16LE, setUint8,
    emptyBuf]

lemma wavHeader_u32_16 (sr bl : ℕ) : readU32 (wavHeader sr bl) 16 = 16 := by
  simp [readU32, wavHeader, writeString, writeChars, setUint32LE, setUint16LE,
    setUint8, emptyBuf]

lemma wavHeader_u16_20 (sr bl : ℕ) : readU16 (wavHeader sr bl) 20 = 1 := by
  simp [readU16, wavHeader, writeString, writeChars, setUint32LE, setUint16LE,
    setUint8, emptyBuf]

lemma wavHeader_u16_22 (sr bl : ℕ) : readU16 (wavHeader sr bl) 22 = 1 := by
  simp [readU16, wavHeader, writeString, writeChars, setUint32LE, setUint16LE,
    setUint8, emptyBuf]

lemma wavHeader_u32_24 (sr bl : ℕ) (h : sr < 4294967296) :
    readU32 (wavHeader sr bl) 24 = sr := by
  simp [readU32, wavHeader, writeString, writeChars, setUint32LE, setUint16LE,
    setUint8, emptyBuf]
  omega

lemma wavHeader_u32_28 (sr bl : ℕ) (h : 2 * sr < 4294967296) :
    readU32 (wavHeader sr bl) 28 = 2 * sr := by
  simp [readU32, wavHeader, writeString, writeChars, setUint32LE, setUint16LE,
    setUint8, emptyBuf]
  omega

lemma wavHeader_u16_32 (sr bl : ℕ) : readU16 (wavHeader sr bl) 32 = 2 := by
  simp [readU16, wavHeader, writeString, writeChars, setUint32LE, setUint16LE,
    setUint8, emptyBuf]

lemma wavHeader_u16_34 (sr bl : ℕ) : readU16 (wavHeader sr bl) 34 = 16 := by
  simp [readU16, wavHeader, writeString, writeChars, setUint32LE, setUint16LE,
    setUint8, emptyBuf]

lemma wavHeader_u32_40 (sr bl : ℕ) (h : bl < 4294967296) :
    readU32 (wavHeader sr bl) 40 = bl := by
  simp [readU32, wavHeader, writeString, writeChars, setUint32LE, setUint16LE,
    setUint8, emptyBuf]
  omega

/-- C6: for every list of in-range 16-bit mono PCM samples and every sample
rate whose derived fields fit their 32-bit slots, `pcmToWav` produces the
canonical WAV container: total size 44 + payload bytes; "RIFF" at 0; RIFF
chunk size 36 + payload at 4; "WAVE"; "fmt " with subchunk size 16, audio
format 1 (PCM), 1 channel, the sample rate, byte rate = sampleRate * 2,
block align = 2, 16 bits per sample; a "data" chunk declaring exactly the
payload byte length; and the raw little-endian samples from offset 44 on. -/
theorem pcmToWav_canonical (pcm : List ℤ) (sampleRate : ℕ)
    (hrate : 2 * sampleRate < 4294967296)
    (hlen : 36 + 2 * pcm.length < 4294967296)
    (hsamp : ∀ s ∈ pcm, -32768 ≤ s ∧ s < 32768) :
    (pcmToWav pcm sampleRate).2 = 44 + 2 * pcm.length ∧
    [(pcmToWav pcm sampleRate).1 0, (pcmToWav pcm sampleRate).1 1,
      (pcmToWav pcm sampleRate).1 2, (pcmToWav pcm sampleRate).1 3] =
      [82, 73, 70, 70] ∧
    readU32 (pcmToWav pcm sampleRate).1 4 = 36 + 2 * pcm.length ∧
    [(pcmToWav pcm sampleRate).1 8, (pcmToWav pcm sampleRate).1 9,
      (pcmToWav pcm sampleRate).1 10, (pcmToWav pcm sampleRate).1 11] =
      [87, 65, 86, 69] ∧
    [(pcmToWav pcm sampleRate).1 12, (pcmToWav pcm sampleRate).1 13,
      (pcmToWav pcm sampleRate).1 14, (pcmToWav pcm sampleRate).1 15] =
      [102, 109, 116, 32] ∧
    readU32 (pcmToWav pcm sampleRate).1 16 = 16 ∧
    readU16 (pcmToWav pcm sampleRate).1 20 = 1 ∧
    readU16 (pcmToWav pcm sampleRate).1 22 = 1 ∧
    readU32 (pcmToWav pcm sampleRate).1 24 = sampleRate ∧
    readU32 (pcmToWav pcm sampleRate).1 28 = 2 * sampleRate ∧
    readU16 (pcmToWav pcm sampleRate).1 32 = 2 ∧
    readU16 (pcmToWav pcm sampleRate).1 34 = 16 ∧
    [(pcmToWav pcm sampleRate).1 36, (pcmToWav pcm sampleRate).1 37,
      (pcmToWav pcm sampleRate).1 38, (pcmToWav pcm sampleRate).1 39] =
      [100, 97, 116, 97] ∧
    readU32 (pcmToWav pcm sampleRate).1 40 = 2 * pcm.length ∧
    ∀ i, i < pcm.length →
      readS16 (pcmToWav pcm sampleRate).1 (44 + 2 * i) = pcm.getD i 0 := by
  have hb : ∀ k, k < 44 →
      (pcmToWav pcm sampleRate).1 k = wavHeader sampleRate (2 * pcm.length) k :=
    fun k hk => writeSamples_lt pcm _ 44 k hk
  have hb16 : ∀ o, o + 1 < 44 →
      readU16 (pcmToWav pcm sampleRate).1 o =
        readU16 (wavHeader sampleRate (2 * pcm.length)) o := by
    intro o ho
    rw [readU16, readU16, hb o (by omega), hb (o + 1) (by omega)]
  have hb32 : ∀ o, o + 3 < 44 →
      readU32 (pcmToWav pcm sampleRate).1 o =
        readU32 (wavHeader sampleRate (2 * pcm.length)) o := by
    intro o ho
    rw [readU32, readU32, hb o (by omega), hb (o + 1) (by omega),
      hb (o + 2) (by omega), hb (o + 3) (by omega)]
  refine ⟨rfl, ?_, ?_, ?_, ?_, ?_, ?_, ?_, ?_, ?_, ?_, ?_, ?_, ?_, ?_⟩
  · rw [hb 0 (by omega), hb 1 (by omega), hb 2 (by omega), hb 3 (by omega)]
    exact wavHeader_riff _ _
  · rw [hb32 4 (by omega)]
    exact wavHeader_u32_4 _ _ hlen
  · rw [hb 8 (by omega), hb 9 (by omega), hb 10 (by omega), hb 11 (by omega)]
    exact wavHeader_wave _ _
  · rw [hb 12 (by omega), hb 13 (by omega), hb 14 (by omega), hb 15 (by omega)]
    exact wavHeader_fmt _ _
  · rw [hb32 16 (by omega)]
    exact wavHeader_u32_16 _ _
  · rw [hb16 20 (by omega)]
    exact wavHeader_u16_20 _ _
  · rw [hb16 22 (by omega)]
    exact wavHeader_u16_22 _ _
  · rw [hb32 24 (by omega)]
    exact wavHeader_u32_24 _ _ (by omega)
  · rw [hb32 28 (by omega)]
    exact wavHeader_u32_28 _ _ hrate
  · rw [hb16 32 (by omega)]
    exact wavHeader_u16_32 _ _
  · rw [hb16 34 (by omega)]
    exact wavHeader_u16_34 _ _
  · rw [hb 36 (by omega), hb 37 (by omega), hb 38 (by omega), hb 39 (by omega)]
    exact wavHeader_data _ _
  · rw [hb32 40 (by omega)]
    exact wavHeader_u32_40 _ _ (by omega)
  · intro i hi
    show readS16 (writeSamples (wavHeader sampleRate (2 * pcm.length)) 44 pcm)
      (44 + 2 * i) = pcm.getD i 0
    exact readS16_writeSamples pcm _ 44 i hi hsamp

/-- Witness for C6 at a concrete sample list and rate. -/
theorem pcmToWav_canonical_witness :
    2 * 8000 < 4294967296 ∧
    (pcmToWav [(1 : ℤ), -2] 8000).2 = 44 + 2 * ([(1 : ℤ), -2]).length :=
  ⟨by norm_num,
    (pcmToWav_canonical [(1 : ℤ), -2] 8000 (by norm_num) (by norm_num)
      (by decide)).1⟩
